import Mathlib

/-!
Verification development for the `react-exo-hooks` repository.

The repository provides stateful collection wrappers (`StatefulMap`,
`StatefulSet`, `StatefulArray`), a recursive mutation-observing object
proxy (`useObject` / `proxyObject`), and a fetch/promise state machine
(`useFetch`).  This file embeds those components shallowly:

* collections become records holding the underlying entries together with
  the per-instance signal counter; every mutating operation returns the
  new record plus the list of values dispatched to the host's signal
  channel (`React.Dispatch` invocations);
* the object proxies become operations over an explicit heap of cells
  (plain objects, class instances, and proxy cells with a revocation
  flag and the recorded revocation entries), mirroring the ECMAScript
  semantics of `Proxy` / `Proxy.revocable` used by the source;
* the fetch hook becomes a small event-driven state machine whose events
  are dependency-list changes and promise completions.

Numbers stand in for the JavaScript values stored in collections; heap
addresses model JavaScript object identity, so `!==` on objects becomes
inequality of addresses and `!==` on primitives becomes value inequality.
-/

namespace ReactExoHooks

/-! ## Association-list primitives for the `StatefulMap` embedding

JavaScript `Map`s preserve insertion order; `set` updates an existing key
in place and appends a new key, and `delete` removes the key's entry.
-/

/-- `Map.prototype.get`: the value stored at `k`, if any. -/
def lookupKey : List (Nat × Nat) → Nat → Option Nat
  | [], _ => none
  | (k', v) :: rest, k => if k' = k then some v else lookupKey rest k

/-- `Map.prototype.has`. -/
def containsKey (l : List (Nat × Nat)) (k : Nat) : Bool :=
  (lookupKey l k).isSome

/-- `Map.prototype.set` on the raw entries: update in place or append. -/
def mapInsert : List (Nat × Nat) → Nat → Nat → List (Nat × Nat)
  | [], k, v => [(k, v)]
  | (k', v') :: rest, k, v =>
    if k' = k then (k, v) :: rest else (k', v') :: mapInsert rest k v

/-- `Map.prototype.delete` on the raw entries. -/
def removeKey : List (Nat × Nat) → Nat → List (Nat × Nat)
  | [], _ => []
  | (k', v') :: rest, k => if k' = k then rest else (k', v') :: removeKey rest k

/-! ## `StatefulMap` (src/src/index.ts, class `StatefulMap`)

The record carries the entries, the private `_signal` counter and whether
`_setRedefine` has been called.  Each operation additionally reports the
list of values passed to `_dispatchSignal` (the signal channel).
-/

structure StatefulMap where
  entries : List (Nat × Nat)
  signal : Nat
  hasRedefine : Bool
  deriving DecidableEq, Repr

structure MapOp where
  state : StatefulMap
  emitted : List Int
  deriving DecidableEq, Repr

structure MapOpB where
  state : StatefulMap
  emitted : List Int
  ret : Bool
  deriving DecidableEq, Repr

/-- `StatefulMap.set`: perform the native set, then dispatch
`++this._signal` when the key was new or the stored value differed. -/
def StatefulMap.set (m : StatefulMap) (k v : Nat) : MapOp :=
  let entries' := mapInsert m.entries k v
  if containsKey m.entries k = false ∨ lookupKey m.entries k ≠ some v then
    { state := { m with entries := entries', signal := m.signal + 1 },
      emitted := [Int.ofNat (m.signal + 1)] }
  else
    { state := { m with entries := entries' }, emitted := [] }

/-- `StatefulMap.delete`: dispatch `++this._signal` iff the native delete
returned `true`. -/
def StatefulMap.delete (m : StatefulMap) (k : Nat) : MapOpB :=
  let entries' := removeKey m.entries k
  if containsKey m.entries k then
    { state := { m with entries := entries', signal := m.signal + 1 },
      emitted := [Int.ofNat (m.signal + 1)], ret := true }
  else
    { state := { m with entries := entries' }, emitted := [], ret := false }

/-- `StatefulMap.clear`: `super.clear()` then dispatch `this._signal = 0`
unconditionally. -/
def StatefulMap.clear (m : StatefulMap) : MapOp :=
  { state := { m with entries := [], signal := 0 }, emitted := [(0 : Int)] }

/-- `StatefulMap.forceUpdate`: dispatch `++this._signal` unconditionally. -/
def StatefulMap.forceUpdate (m : StatefulMap) : MapOp :=
  { state := { m with signal := m.signal + 1 },
    emitted := [Int.ofNat (m.signal + 1)] }

/-- `StatefulMap.reset`: throws when no redefine callback is registered;
otherwise builds a fresh instance carrying the new entries, copies the
counter (`instance._signal = this._signal`) and dispatches
`++instance._signal`.  The fresh instance has no redefine callback yet. -/
def StatefulMap.reset (m : StatefulMap) (v : List (Nat × Nat)) :
    Except String MapOp :=
  if m.hasRedefine then
    Except.ok { state := { entries := v, signal := m.signal + 1, hasRedefine := false },
                emitted := [Int.ofNat (m.signal + 1)] }
  else
    Except.error "Cannot redefine Set. No redefine callback set."

/-- `useMap`'s `useState` initializer for the signal
(`Array.isArray(initial) ? initial.length : initial?.size ?? 0`),
for an array-literal initial value. -/
def useMapInitialSignal (l : List (Nat × Nat)) : Nat :=
  l.length

/-! ## `StatefulSet` (src/unnamed/part_003, class `StatefulSet`)

This class keeps no `_signal` counter at all: every dispatch passes the
set's current `size` (and `forceUpdate` passes the constant `-1`).
-/

structure StatefulSet where
  elems : List Nat
  hasRedefine : Bool
  deriving DecidableEq, Repr

structure SetOp where
  state : StatefulSet
  emitted : List Int
  deriving DecidableEq, Repr

structure SetOpB where
  state : StatefulSet
  emitted : List Int
  ret : Bool
  deriving DecidableEq, Repr

/-- `StatefulSet.add`: native add, then dispatch `super.size`
unconditionally. -/
def StatefulSet.add (s : StatefulSet) (v : Nat) : SetOp :=
  let elems' := if v ∈ s.elems then s.elems else s.elems ++ [v]
  { state := { s with elems := elems' }, emitted := [Int.ofNat elems'.length] }

/-- `StatefulSet.delete`: native delete, then dispatch `super.size`
unconditionally; returns the native result. -/
def StatefulSet.delete (s : StatefulSet) (v : Nat) : SetOpB :=
  let elems' := s.elems.erase v
  { state := { s with elems := elems' },
    emitted := [Int.ofNat elems'.length],
    ret := s.elems.contains v }

/-- `StatefulSet.clear`: native clear, then dispatch `super.size` (now 0). -/
def StatefulSet.clear (s : StatefulSet) : SetOp :=
  { state := { s with elems := [] }, emitted := [(0 : Int)] }

/-- `StatefulSet.forceUpdate`: dispatch the constant `-1`. -/
def StatefulSet.forceUpdate (s : StatefulSet) : SetOp :=
  { state := s, emitted := [(-1 : Int)] }

/-- `StatefulSet.toggle`: delete when present, add when absent, dispatch
the new size in both branches — and return `false` in both branches,
exactly as the source does. -/
def StatefulSet.toggle (s : StatefulSet) (v : Nat) : SetOpB :=
  if v ∈ s.elems then
    let elems' := s.elems.erase v
    { state := { s with elems := elems' },
      emitted := [Int.ofNat elems'.length], ret := false }
  else
    let elems' := s.elems ++ [v]
    { state := { s with elems := elems' },
      emitted := [Int.ofNat elems'.length], ret := false }

/-- `StatefulSet.reset`: throws when no redefine callback is registered;
otherwise builds a fresh instance from the new values (a JS `Set`
deduplicates, keeping first occurrences) and dispatches `instance.size`. -/
def StatefulSet.reset (s : StatefulSet) (v : List Nat) :
    Except String SetOp :=
  if s.hasRedefine then
    Except.ok { state := { elems := v.dedup, hasRedefine := false },
                emitted := [Int.ofNat v.dedup.length] }
  else
    Except.error "Cannot redefine Set. No redefine callback set."

/-! ## `StatefulArray` (src/unnamed/part_003, class `StatefulArray`) -/

structure StatefulArray where
  data : List Nat
  signal : Nat
  deriving DecidableEq, Repr

structure ArrOp where
  state : StatefulArray
  emitted : List Int
  deriving DecidableEq, Repr

structure ArrOpV where
  state : StatefulArray
  emitted : List Int
  ret : Option Nat
  deriving DecidableEq, Repr

structure ArrOpN where
  state : StatefulArray
  emitted : List Int
  ret : Nat
  deriving DecidableEq, Repr

structure ArrOpL where
  state : StatefulArray
  emitted : List Int
  ret : List Nat
  deriving DecidableEq, Repr

/-- `StatefulArray.copyWithin`: the change-detection loop runs
`for (let offset = 0; offset < (end ?? this.length - 1); ++offset)` and
compares `this[target + offset] !== this[start + offset]`; the native
copy then moves `min((min(end ?? len, len)) - start, len - target)`
elements from `start` onward to `target` onward, reading the original
values. -/
def StatefulArray.copyWithin (a : StatefulArray) (target start : Nat)
    (end? : Option Nat) : ArrOp :=
  let bound := end?.getD (a.data.length - 1)
  let different := (List.range' 0 bound).any fun offset =>
    a.data[target + offset]? != a.data[start + offset]?
  let dst := min target a.data.length
  let src := min start a.data.length
  let final := min (end?.getD a.data.length) a.data.length
  let count := min (final - src) (a.data.length - dst)
  let data' := a.data.mapIdx fun i x =>
    if dst ≤ i ∧ i < dst + count then a.data.getD (src + (i - dst)) x else x
  if different then
    { state := { data := data', signal := a.signal + 1 },
      emitted := [Int.ofNat (a.signal + 1)] }
  else
    { state := { a with data := data' }, emitted := [] }

/-- `StatefulArray.fill`: the change-detection loop runs
`for (let i = start ?? 0; i < (end ?? this.length - 1); ++i)` and compares
`this[i] !== value` (out-of-range reads give `undefined`, which differs
from any value); the native fill itself runs over
`[start ?? 0, end ?? this.length)`. -/
def StatefulArray.fill (a : StatefulArray) (v : Nat)
    (start? end? : Option Nat) : ArrOp :=
  let s0 := start?.getD 0
  let bound := end?.getD (a.data.length - 1)
  let different := (List.range' s0 (bound - s0)).any fun i => a.data[i]? != some v
  let nativeEnd := end?.getD a.data.length
  let data' := a.data.mapIdx fun i x => if s0 ≤ i ∧ i < nativeEnd then v else x
  if different then
    { state := { data := data', signal := a.signal + 1 },
      emitted := [Int.ofNat (a.signal + 1)] }
  else
    { state := { a with data := data' }, emitted := [] }

/-- `StatefulArray.pop`: signal iff the array is nonempty (`this.length`
truthy), then the native pop. -/
def StatefulArray.pop (a : StatefulArray) : ArrOpV :=
  if a.data.length ≠ 0 then
    { state := { data := a.data.dropLast, signal := a.signal + 1 },
      emitted := [Int.ofNat (a.signal + 1)], ret := a.data.getLast? }
  else
    { state := { a with data := a.data.dropLast }, emitted := [],
      ret := a.data.getLast? }

/-- `StatefulArray.push`: signal iff `items.length` is truthy, then the
native push (which returns the new length). -/
def StatefulArray.push (a : StatefulArray) (items : List Nat) : ArrOpN :=
  if items.length ≠ 0 then
    { state := { data := a.data ++ items, signal := a.signal + 1 },
      emitted := [Int.ofNat (a.signal + 1)], ret := (a.data ++ items).length }
  else
    { state := { a with data := a.data ++ items }, emitted := [],
      ret := (a.data ++ items).length }

/-- `StatefulArray.reverse`: scan `i < Math.floor(length / 2)` comparing
`this[i] !== this[this.length - i - 1]`; signal iff some pair differs
(the array is not a palindrome), then the native reverse. -/
def StatefulArray.reverse (a : StatefulArray) : ArrOp :=
  let mismatch := (List.range' 0 (a.data.length / 2)).any fun i =>
    a.data[i]? != a.data[a.data.length - i - 1]?
  if mismatch then
    { state := { data := a.data.reverse, signal := a.signal + 1 },
      emitted := [Int.ofNat (a.signal + 1)] }
  else
    { state := { a with data := a.data.reverse }, emitted := [] }

/-- `StatefulArray.shift`: signal iff the array is nonempty, then the
native shift. -/
def StatefulArray.shift (a : StatefulArray) : ArrOpV :=
  if a.data.length ≠ 0 then
    { state := { data := a.data.tail, signal := a.signal + 1 },
      emitted := [Int.ofNat (a.signal + 1)], ret := a.data.head? }
  else
    { state := { a with data := a.data.tail }, emitted := [],
      ret := a.data.head? }

/-- `StatefulArray.splice`: signal iff `deleteCount || rest.length` is
truthy.  The body forwards `super.splice(start, deleteCount, ...rest)`,
so an omitted `deleteCount` is passed on as `undefined`, which the
native splice converts to `0` (it deletes nothing). -/
def StatefulArray.splice (a : StatefulArray) (start : Nat)
    (deleteCount? : Option Nat) (rest : List Nat) : ArrOpL :=
  let actualStart := min start a.data.length
  let actualDelete := match deleteCount? with
    | none => 0
    | some d => min d (a.data.length - actualStart)
  let data' := a.data.take actualStart ++ rest
    ++ a.data.drop (actualStart + actualDelete)
  let deleted := (a.data.drop actualStart).take actualDelete
  if deleteCount?.getD 0 ≠ 0 ∨ rest ≠ [] then
    { state := { data := data', signal := a.signal + 1 },
      emitted := [Int.ofNat (a.signal + 1)], ret := deleted }
  else
    { state := { a with data := data' }, emitted := [], ret := deleted }

/-- `StatefulArray.unshift`: signal iff `items.length` is truthy, then
the native unshift (which returns the new length). -/
def StatefulArray.unshift (a : StatefulArray) (items : List Nat) : ArrOpN :=
  if items.length ≠ 0 then
    { state := { data := items ++ a.data, signal := a.signal + 1 },
      emitted := [Int.ofNat (a.signal + 1)], ret := (items ++ a.data).length }
  else
    { state := { a with data := items ++ a.data }, emitted := [],
      ret := (items ++ a.data).length }

/-- `StatefulArray.sort`, fuel-indexed.  The source dispatches
`++this._signal` and then returns `this.sort(compareFn)` — a call to the
override itself, not to `super.sort` — so each call only dispatches and
recurses.  `none` means the call has not returned within `fuel` frames. -/
def StatefulArray.sortFuel : Nat → StatefulArray → Option StatefulArray
  | 0, _ => none
  | fuel + 1, a => StatefulArray.sortFuel fuel { a with signal := a.signal + 1 }

/-! ## The `useFetch` state machine (src/hooks/use-promise.ts)

`value.current` is the observable `PromiseResult`.  On every dependency
change the memo body resets it to `waiting` (clearing `result`/`error`
unless `persist`), the old effect's cleanup aborts the previous
operation's `AbortController`, and the new effect starts a fresh
operation when the factory returned a callback.  A settling promise
commits its outcome only when its own controller has not been aborted,
i.e. only when it is still the current operation.

Events: `depChange hasCallback` is a dependency-list change (the factory
returned a callback iff `hasCallback`); `complete id outcome` is the
settling of the operation started as the `id`-th one.
-/

inductive FState where
  | waiting
  | resolved
  | rejected
  deriving DecidableEq, Repr

structure FetchValue where
  fstate : FState
  result : Option Nat
  error : Option Nat
  deriving DecidableEq, Repr

structure FetchMachine where
  value : FetchValue
  persist : Bool
  nextId : Nat
  current : Option Nat
  deriving DecidableEq, Repr

/-- Settlement of a promise: fulfilled with a result or rejected with an
error. -/
inductive FOutcome where
  | resolve (r : Nat)
  | reject (e : Nat)
  deriving DecidableEq, Repr

inductive FEvent where
  | depChange (hasCallback : Bool)
  | complete (id : Nat) (outcome : FOutcome)
  deriving DecidableEq, Repr

/-- The machine before the first render: the `useRef` initial value. -/
def initFetch (persist : Bool) : FetchMachine :=
  { value := { fstate := .waiting, result := none, error := none },
    persist := persist, nextId := 0, current := none }

/-- One event of the `useFetch` lifecycle. -/
def fetchStep (m : FetchMachine) : FEvent → FetchMachine
  | .depChange hasCallback =>
    { value := { fstate := .waiting,
                 result := if m.persist then m.value.result else none,
                 error := if m.persist then m.value.error else none },
      persist := m.persist,
      nextId := if hasCallback then m.nextId + 1 else m.nextId,
      current := if hasCallback then some m.nextId else none }
  | .complete id outcome =>
    if m.current = some id then
      match outcome with
      | .resolve r =>
        { m with value := { fstate := .resolved, result := some r,
                            error := if m.persist then m.value.error else none } }
      | .reject e =>
        { m with value := { fstate := .rejected,
                            result := if m.persist then m.value.result else none,
                            error := some e } }
    else m

/-- Run a sequence of events. -/
def fetchRun (m : FetchMachine) : List FEvent → FetchMachine
  | [] => m
  | e :: es => fetchRun (fetchStep m e) es

/-! ## Heap model for the `useObject` proxies

JavaScript values: `undef`, numbers, function values (identified by a
tag; the `() => signal` accessor installed on `valueOf` is `closure 0`),
and references to heap cells.  A heap cell is either an ordinary object
(with its property list and whether its prototype is `Object.prototype`)
or a proxy (its target address, its ECMAScript revocation flag, and the
revocation entries accumulated by `proxyObject`'s `revocables` array:
each entry records the child proxy whose compound revoke is invoked and
the raw value written back into the parent slot).

`PState.signals` counts the invocations of the hook's signal dispatch.
-/

inductive JSVal where
  | undef
  | num (n : Nat)
  | closure (id : Nat)
  | addr (a : Nat)
  deriving DecidableEq, Repr

structure RevEntry where
  child : Nat
  tgt : Nat
  key : String
  restore : JSVal
  deriving DecidableEq, Repr

inductive Cell where
  | obj (props : List (String × JSVal)) (plainProto : Bool)
  | prox (target : Nat) (revoked : Bool) (entries : List RevEntry)
  deriving DecidableEq, Repr

structure PState where
  heap : List Cell
  signals : Nat
  deriving DecidableEq, Repr

def getCell (s : PState) (a : Nat) : Option Cell :=
  s.heap.get? a

def setCell (s : PState) (a : Nat) (c : Cell) : PState :=
  { s with heap := s.heap.set a c }

def alloc (s : PState) (c : Cell) : PState × Nat :=
  ({ s with heap := s.heap ++ [c] }, s.heap.length)

/-- Reading an own property; absent properties read as `undefined`. -/
def getProp : List (String × JSVal) → String → JSVal
  | [], _ => .undef
  | (k', v) :: rest, k => if k' = k then v else getProp rest k

/-- `prop in target` (own properties). -/
def hasProp (props : List (String × JSVal)) (k : String) : Bool :=
  props.any fun p => p.1 = k

/-- Property assignment: update in place or append. -/
def setProp : List (String × JSVal) → String → JSVal → List (String × JSVal)
  | [], k, v => [(k, v)]
  | (k', v') :: rest, k, v =>
    if k' = k then (k, v) :: rest else (k', v') :: setProp rest k v

/-- `delete target[prop]`. -/
def delProp : List (String × JSVal) → String → List (String × JSVal)
  | [], _ => []
  | (k', v') :: rest, k => if k' = k then rest else (k', v') :: delProp rest k

/-- Property list of the object cell at `a` (empty for non-objects). -/
def objPropsOf (s : PState) (a : Nat) : List (String × JSVal) :=
  match getCell s a with
  | some (.obj props _) => props
  | _ => []

/-- Direct assignment to the raw object at `a` (no trap, no signal). -/
def updateProp (s : PState) (a : Nat) (k : String) (v : JSVal) : PState :=
  match getCell s a with
  | some (.obj props plainProto) => setCell s a (.obj (setProp props k v) plainProto)
  | _ => s

/-- `isPlainObject` (src/src/hooks/use-object.ts): an object value whose
prototype is `Object.prototype`; `getPrototypeOf` forwards through
proxies to their target, resolved here with fuel. -/
def isPlainAux (s : PState) : Nat → JSVal → Bool
  | _, .undef => false
  | _, .num _ => false
  | _, .closure _ => false
  | 0, .addr _ => false
  | fuel + 1, .addr a =>
    match getCell s a with
    | some (.obj _ plainProto) => plainProto
    | some (.prox t _ _) => isPlainAux s fuel (.addr t)
    | none => false

def isPlainObj (s : PState) (v : JSVal) : Bool :=
  isPlainAux s s.heap.length v

/-- The `for (const key in object)` wrapping loop shared by the recursive
builders, parametric in the recursive wrap so each builder stays
structurally recursive on its fuel.  For every enumerated key whose
current value is a plain object it wraps that value and stores the
wrapper into the raw object (a direct write: no trap, no signal). -/
def initLoopWith (wrap : PState → Nat → Option (PState × Nat)) :
    PState → Nat → List String → Option PState
  | s, _, [] => some s
  | s, a, k :: ks =>
    let v := getProp (objPropsOf s a) k
    if isPlainObj s v then
      match v with
      | .addr va =>
        match wrap s va with
        | some (s', sub) => initLoopWith wrap (updateProp s' a k (.addr sub)) a ks
        | none => none
      | _ => none
    else initLoopWith wrap s a ks

/-- `proxyObject` of src/src/hooks/use-object.ts: wrap nested plain
properties, then wrap the object in a (non-revocable) proxy. -/
def proxyObjectSS : Nat → PState → Nat → Option (PState × Nat)
  | 0, _, _ => none
  | fuel + 1, s, a =>
    match getCell s a with
    | some (.obj props _) =>
      match initLoopWith (proxyObjectSS fuel) s a (props.map fun p => p.1) with
      | some s' => some (alloc s' (.prox a false []))
      | none => none
    | _ => none

/-- The `set` trap of src/src/hooks/use-object.ts `proxyObject`:
signal when the property is not `valueOf` and the stored value differs
(`!==`); then recursively wrap a plain assigned value before storing it,
or store any other value as-is. -/
def proxySetSS (fuel : Nat) (s : PState) (p : Nat) (k : String) (v : JSVal) :
    Option PState :=
  match getCell s p with
  | some (.prox t _ _) =>
    match getCell s t with
    | some (.obj props _) =>
      let s₁ := if k ≠ "valueOf" ∧ getProp props k ≠ v then
                  { s with signals := s.signals + 1 } else s
      if isPlainObj s₁ v then
        match v with
        | .addr va =>
          match proxyObjectSS fuel s₁ va with
          | some (s₂, sub) => some (updateProp s₂ t k (.addr sub))
          | none => none
        | _ => none
      else some (updateProp s₁ t k v)
    | _ => none
  | _ => none

/-- The `set` trap of src/hooks/use-object.ts `useObject` (the
non-recursive version): same signal condition, then a raw store. -/
def proxySetSimple (s : PState) (p : Nat) (k : String) (v : JSVal) :
    Option PState :=
  match getCell s p with
  | some (.prox t _ _) =>
    match getCell s t with
    | some (.obj props _) =>
      let s₁ := if k ≠ "valueOf" ∧ getProp props k ≠ v then
                  { s with signals := s.signals + 1 } else s
      some (updateProp s₁ t k v)
    | _ => none
  | _ => none

/-- Default `get` through a live proxy (no `get` trap in the source):
forwards to the target; a revoked proxy throws (`none`). -/
def proxyGet (s : PState) (p : Nat) (k : String) : Option JSVal :=
  match getCell s p with
  | some (.prox _ true _) => none
  | some (.prox t false _) =>
    match getCell s t with
    | some (.obj props _) => some (getProp props k)
    | _ => none
  | _ => none

/-! ### `proxyObject` of src/unnamed/part_002 (`Proxy.revocable` version)

Identical wrapping logic, but every wrap is revocable: the initial loop
records `() => { subrevoke(); object[key] = original }` and the `set`
trap records `() => { subrevoke(); Reflect.set(target, prop, newValue) }`
in the builder's `revocables` array (stored in the proxy cell).
-/

/-- The initial wrapping loop of part_002, also accumulating the
revocation entries. -/
def initLoopP2With (wrap : PState → Nat → Option (PState × Nat)) :
    PState → Nat → List String → List RevEntry → Option (PState × List RevEntry)
  | s, _, [], acc => some (s, acc)
  | s, a, k :: ks, acc =>
    let v := getProp (objPropsOf s a) k
    if isPlainObj s v then
      match v with
      | .addr va =>
        match wrap s va with
        | some (s', sub) =>
          initLoopP2With wrap (updateProp s' a k (.addr sub)) a ks
            (acc ++ [{ child := sub, tgt := a, key := k, restore := v }])
        | none => none
      | _ => none
    else initLoopP2With wrap s a ks acc

def proxyObjectP2 : Nat → PState → Nat → Option (PState × Nat)
  | 0, _, _ => none
  | fuel + 1, s, a =>
    match getCell s a with
    | some (.obj props _) =>
      match initLoopP2With (proxyObjectP2 fuel) s a (props.map fun p => p.1) [] with
      | some (s', entries) => some (alloc s' (.prox a false entries))
      | none => none
    | _ => none

/-- The `set` trap of part_002's `proxyObject`.  Operations through a
revoked proxy throw a `TypeError` (`none`), per ECMAScript. -/
def proxySetP2 (fuel : Nat) (s : PState) (p : Nat) (k : String) (v : JSVal) :
    Option PState :=
  match getCell s p with
  | some (.prox _ true _) => none
  | some (.prox t false entries) =>
    match getCell s t with
    | some (.obj props _) =>
      let s₁ := if k ≠ "valueOf" ∧ getProp props k ≠ v then
                  { s with signals := s.signals + 1 } else s
      if isPlainObj s₁ v then
        match v with
        | .addr va =>
          match proxyObjectP2 fuel s₁ va with
          | some (s₂, sub) =>
            let s₃ := setCell s₂ p
              (.prox t false (entries ++ [{ child := sub, tgt := t, key := k, restore := v }]))
            some (updateProp s₃ t k (.addr sub))
          | none => none
        | _ => none
      else some (updateProp s₁ t k v)
    | _ => none
  | _ => none

/-- The `deleteProperty` trap of part_002's `proxyObject`. -/
def proxyDelP2 (s : PState) (p : Nat) (k : String) : Option PState :=
  match getCell s p with
  | some (.prox _ true _) => none
  | some (.prox t false _) =>
    match getCell s t with
    | some (.obj props plainProto) =>
      let s₁ := if hasProp props k then { s with signals := s.signals + 1 } else s
      some (setCell s₁ t (.obj (delProp props k) plainProto))
    | _ => none
  | _ => none

/-- Processing of a builder's `revocables` array during `revoke`,
parametric in the recursive compound revoke. -/
def revokeListWith (rev : PState → Nat → PState) :
    PState → List RevEntry → PState
  | s, [] => s
  | s, e :: es =>
    revokeListWith rev (updateProp (rev s e.child) e.tgt e.key e.restore) es

/-- The compound `revoke` of part_002: revoke the own proxy (ECMAScript:
idempotent), then run every recorded child revoke and restore. -/
def revokeP2 : Nat → PState → Nat → PState
  | 0, s, _ => s
  | fuel + 1, s, p =>
    match getCell s p with
    | some (.prox t _ entries) =>
      revokeListWith (revokeP2 fuel) (setCell s p (.prox t true entries)) entries
    | _ => s

/-! ### `proxyObject` of src/unnamed/part_001 (the earlier revision)

No initial wrapping loop; the `set` trap tests
`Object.getPrototypeOf(object) === Object.prototype` on the closure
variable `object` — the proxied target — rather than on `newValue`, so
whenever the target is plain the trap passes every assigned value to a
recursive `proxyObject` call, and `Proxy.revocable` on a primitive
throws a `TypeError` (`none`).  The recorded revocation entry keeps only
the child handle (part_001 restores nothing); the `restore` field is
inert here because part_001's revoke is never modelled.
-/

def proxyObjectP1 (s : PState) (v : JSVal) : Option (PState × Nat) :=
  match v with
  | .addr a =>
    match getCell s a with
    | some _ => some (alloc s (.prox a false []))
    | none => none
  | _ => none

def proxySetP1 (s : PState) (p : Nat) (k : String) (v : JSVal) :
    Option PState :=
  match getCell s p with
  | some (.prox _ true _) => none
  | some (.prox t false entries) =>
    match getCell s t with
    | some (.obj props _) =>
      let s₁ := if k ≠ "valueOf" ∧ getProp props k ≠ v then
                  { s with signals := s.signals + 1 } else s
      if isPlainObj s₁ (.addr t) then
        match proxyObjectP1 s₁ v with
        | some (s₂, sub) =>
          let s₃ := setCell s₂ p
            (.prox t false (entries ++ [{ child := sub, tgt := t, key := k, restore := .undef }]))
          some (updateProp s₃ t k (.addr sub))
        | none => none
      else some (updateProp s₁ t k v)
    | _ => none
  | _ => none

/-! ## Helper lemmas for the collection embeddings -/

instance {α β : Type} [DecidableEq α] [DecidableEq β] :
    DecidableEq (Except α β) := fun x y =>
  match x, y with
  | .ok a, .ok b =>
    if h : a = b then .isTrue (by rw [h]) else .isFalse (by simp [h])
  | .error a, .error b =>
    if h : a = b then .isTrue (by rw [h]) else .isFalse (by simp [h])
  | .ok _, .error _ => .isFalse (by simp)
  | .error _, .ok _ => .isFalse (by simp)

theorem containsKey_eq_false_iff (l : List (Nat × Nat)) (k : Nat) :
    containsKey l k = false ↔ lookupKey l k = none := by
  cases h : lookupKey l k <;> simp [containsKey, h]

theorem mapInsert_eq_self_iff (l : List (Nat × Nat)) (k v : Nat) :
    mapInsert l k v = l ↔ lookupKey l k = some v := by
  induction l with
  | nil => simp [mapInsert, lookupKey]
  | cons hd rest ih =>
    obtain ⟨k', v'⟩ := hd
    by_cases h : k' = k
    · subst h
      simp [mapInsert, lookupKey]
      omega
    · simp [mapInsert, lookupKey, h, ih]

theorem removeKey_eq_self_iff (l : List (Nat × Nat)) (k : Nat) :
    removeKey l k = l ↔ containsKey l k = false := by
  induction l with
  | nil => simp [removeKey, containsKey, lookupKey]
  | cons hd rest ih =>
    obtain ⟨k', v'⟩ := hd
    by_cases h : k' = k
    · subst h
      constructor
      · intro heq
        simp [removeKey] at heq
      · intro heq
        simp [containsKey, lookupKey] at heq
    · simp [removeKey, containsKey, lookupKey, h] at ih ⊢
      exact ih

theorem range'_any_iff (p : Nat → Bool) (s n : Nat) :
    (List.range' s n).any p = true ↔ ∃ i, s ≤ i ∧ i < s + n ∧ p i = true := by
  rw [List.any_eq_true]
  constructor
  · rintro ⟨i, hmem, hp⟩
    rw [List.mem_range'_1] at hmem
    exact ⟨i, hmem.1, hmem.2, hp⟩
  · rintro ⟨i, h1, h2, hp⟩
    exact ⟨i, List.mem_range'_1.mpr ⟨h1, h2⟩, hp⟩

theorem dropLast_eq_self_iff (l : List Nat) : l.dropLast = l ↔ l = [] := by
  constructor
  · intro h
    have hlen := congrArg List.length h
    rw [List.length_dropLast] at hlen
    exact List.length_eq_zero.mp (by omega)
  · intro h
    rw [h]
    rfl

theorem tail_eq_self_iff (l : List Nat) : l.tail = l ↔ l = [] := by
  constructor
  · intro h
    have hlen := congrArg List.length h
    rw [List.length_tail] at hlen
    exact List.length_eq_zero.mp (by omega)
  · intro h
    rw [h]
    rfl

/-- If the palindrome scan over the first half finds no mismatch, the
list equals its reverse. -/
theorem reverse_eq_self_of_no_mismatch (l : List Nat)
    (h : ∀ i, i < l.length / 2 → l[i]? = l[l.length - i - 1]?) :
    l.reverse = l := by
  apply List.ext_getElem?
  intro n
  by_cases hn : n < l.length
  · rw [List.getElem?_reverse hn]
    have hidx : l.length - 1 - n = l.length - n - 1 := by omega
    rw [hidx]
    by_cases hhalf : n < l.length / 2
    · exact (h n hhalf).symm
    · by_cases hmid : l.length - n - 1 = n
      · rw [hmid]
      · have hj : l.length - n - 1 < l.length / 2 := by omega
        have hh := h (l.length - n - 1) hj
        have hidx2 : l.length - (l.length - n - 1) - 1 = n := by omega
        rw [hidx2] at hh
        exact hh
  · rw [List.getElem?_eq_none (by simpa using hn),
      List.getElem?_eq_none (by omega)]

/-- The palindrome scan of `StatefulArray.reverse` finds a mismatch iff
reversing actually changes the list. -/
theorem reverse_mismatch_iff (l : List Nat) :
    ((List.range' 0 (l.length / 2)).any fun i =>
        l[i]? != l[l.length - i - 1]?) = true
      ↔ l.reverse ≠ l := by
  constructor
  · intro h hrev
    rw [range'_any_iff] at h
    obtain ⟨i, -, hi, hp⟩ := h
    rw [bne_iff_ne] at hp
    apply hp
    have hilen : i < l.length := by omega
    have hr := List.getElem?_reverse hilen
    rw [hrev] at hr
    have hidx : l.length - 1 - i = l.length - i - 1 := by omega
    rw [hidx] at hr
    exact hr
  · intro h
    by_contra hany
    apply h
    apply reverse_eq_self_of_no_mismatch
    intro i hi
    by_contra hne
    exact hany ((range'_any_iff _ 0 _).mpr ⟨i, Nat.zero_le i, by omega, by simpa using hne⟩)

/-! ## Claim C3 — when the collection wrappers signal -/

/-- C3 counterexample: `StatefulSet.add` of an element that is already
present changes nothing, yet still invokes the signal channel once
(dispatching the unchanged size), contradicting the claim that an
operation that changes nothing does not signal. -/
theorem statefulSet_add_noop_signals_cex :
    (StatefulSet.add ⟨[5], true⟩ 5).state.elems = [5]
      ∧ (StatefulSet.add ⟨[5], true⟩ 5).emitted = [(1 : Int)] := by
  decide

/-- C3 (amended): `StatefulMap.set` and `StatefulMap.delete`, and
`StatefulArray`'s `push`, `pop`, `shift`, `unshift` and `reverse`,
invoke the signal channel if and only if the operation changed the
visible state; `StatefulMap.clear` and `StatefulSet`'s `add`, `delete`
and `clear` always invoke the signal channel regardless of change;
`StatefulArray.splice` signals iff its `deleteCount` argument is present
and nonzero or insertion items were given — never silently changing the
array (a silent splice is the identity) but possibly signalling with no
change (`splice(0, 5)` on an empty array); `fill` and `copyWithin`
signal iff a scan of the indices/offsets below `end ?? length - 1` finds
a difference, so `fill` with a defaulted `end` misses a change confined
to the last element and `copyWithin` with an explicit `end` can signal
with no change at all; `sort` is excluded here — its override never
completes (claim C5). -/
theorem collection_signal_policy_amended :
    (∀ m k v, (StatefulMap.set m k v).emitted ≠ []
        ↔ mapInsert m.entries k v ≠ m.entries)
    ∧ (∀ m k, (StatefulMap.delete m k).emitted ≠ []
        ↔ removeKey m.entries k ≠ m.entries)
    ∧ (∀ m, (StatefulMap.clear m).emitted = [(0 : Int)])
    ∧ (∀ s v, (StatefulSet.add s v).emitted.length = 1)
    ∧ (∀ s v, (StatefulSet.delete s v).emitted.length = 1)
    ∧ (∀ s, (StatefulSet.clear s).emitted = [(0 : Int)])
    ∧ (∀ a items, (StatefulArray.push a items).emitted ≠ []
        ↔ (StatefulArray.push a items).state.data ≠ a.data)
    ∧ (∀ a, (StatefulArray.pop a).emitted ≠ []
        ↔ (StatefulArray.pop a).state.data ≠ a.data)
    ∧ (∀ a, (StatefulArray.shift a).emitted ≠ []
        ↔ (StatefulArray.shift a).state.data ≠ a.data)
    ∧ (∀ a items, (StatefulArray.unshift a items).emitted ≠ []
        ↔ (StatefulArray.unshift a items).state.data ≠ a.data)
    ∧ (∀ a, (StatefulArray.reverse a).emitted ≠ []
        ↔ (StatefulArray.reverse a).state.data ≠ a.data)
    ∧ (∀ a start dc rest, (StatefulArray.splice a start dc rest).emitted ≠ []
        ↔ (dc.getD 0 ≠ 0 ∨ rest ≠ []))
    ∧ (∀ a start, (StatefulArray.splice a start none []).state.data = a.data
        ∧ (StatefulArray.splice a start none []).emitted = [])
    ∧ (∀ a start, (StatefulArray.splice a start (some 0) []).state.data = a.data
        ∧ (StatefulArray.splice a start (some 0) []).emitted = [])
    ∧ ((StatefulArray.splice ⟨[], 0⟩ 0 (some 5) []).emitted = [(1 : Int)]
        ∧ (StatefulArray.splice ⟨[], 0⟩ 0 (some 5) []).state.data = [])
    ∧ (∀ a v, (StatefulArray.fill a v none none).emitted ≠ []
        ↔ ∃ i, i < a.data.length - 1 ∧ a.data[i]? ≠ some v)
    ∧ ((StatefulArray.fill ⟨[1, 1, 9], 0⟩ 1 none none).emitted = []
        ∧ (StatefulArray.fill ⟨[1, 1, 9], 0⟩ 1 none none).state.data = [1, 1, 1]
        ∧ [1, 1, 1] ≠ [1, 1, 9])
    ∧ (∀ a target start e, (StatefulArray.copyWithin a target start e).emitted ≠ []
        ↔ ∃ o, o < e.getD (a.data.length - 1)
            ∧ a.data[target + o]? ≠ a.data[start + o]?)
    ∧ ((StatefulArray.copyWithin ⟨[1, 2], 0⟩ 0 1 (some 1)).emitted = [(1 : Int)]
        ∧ (StatefulArray.copyWithin ⟨[1, 2], 0⟩ 0 1 (some 1)).state.data = [1, 2]) := by
  refine ⟨?_, ?_, fun m => rfl, fun s v => rfl, fun s v => rfl, fun s => rfl,
    ?_, ?_, ?_, ?_, ?_, ?_, ?_, ?_, by decide, ?_, by decide, ?_, by decide⟩
  · intro m k v
    by_cases h : containsKey m.entries k = false ∨ lookupKey m.entries k ≠ some v
    · have hlk : lookupKey m.entries k ≠ some v := by
        rcases h with h | h
        · rw [containsKey_eq_false_iff] at h
          simp [h]
        · exact h
      have hne : mapInsert m.entries k v ≠ m.entries := fun heq =>
        hlk ((mapInsert_eq_self_iff _ _ _).mp heq)
      simp [StatefulMap.set, if_pos h, hne]
    · have h2 : lookupKey m.entries k = some v := by
        push_neg at h
        exact h.2
      have heq : mapInsert m.entries k v = m.entries :=
        (mapInsert_eq_self_iff _ _ _).mpr h2
      simp [StatefulMap.set, if_neg h, heq]
  · intro m k
    by_cases h : containsKey m.entries k = true
    · have hne : removeKey m.entries k ≠ m.entries := by
        intro heq
        rw [removeKey_eq_self_iff] at heq
        rw [heq] at h
        cases h
      simp [StatefulMap.delete, h, hne]
    · have hfalse : containsKey m.entries k = false := by simpa using h
      have heq : removeKey m.entries k = m.entries :=
        (removeKey_eq_self_iff _ _).mpr hfalse
      simp [StatefulMap.delete, hfalse, heq]
  · intro a items
    by_cases h : items.length ≠ 0
    · have hne2 : items ≠ [] := fun heq => h (by rw [heq]; rfl)
      have hne : a.data ++ items ≠ a.data := by
        rw [ne_eq, List.append_right_eq_self]
        exact hne2
      simp [StatefulArray.push, hne2, hne]
    · have heq : items = [] := List.length_eq_zero.mp (by omega)
      simp [StatefulArray.push, heq]
  · intro a
    by_cases h : a.data.length ≠ 0
    · have hne2 : a.data ≠ [] := fun heq => h (by rw [heq]; rfl)
      have hne : a.data.dropLast ≠ a.data := by
        rw [ne_eq, dropLast_eq_self_iff]
        exact hne2
      simp [StatefulArray.pop, hne2, hne]
    · have heq : a.data = [] := List.length_eq_zero.mp (by omega)
      simp [StatefulArray.pop, heq]
  · intro a
    by_cases h : a.data.length ≠ 0
    · have hne2 : a.data ≠ [] := fun heq => h (by rw [heq]; rfl)
      have hne : a.data.tail ≠ a.data := by
        rw [ne_eq, tail_eq_self_iff]
        exact hne2
      simp [StatefulArray.shift, hne2, hne]
    · have heq : a.data = [] := List.length_eq_zero.mp (by omega)
      simp [StatefulArray.shift, heq]
  · intro a items
    by_cases h : items.length ≠ 0
    · have hne2 : items ≠ [] := fun heq => h (by rw [heq]; rfl)
      have hne : items ++ a.data ≠ a.data := by
        rw [ne_eq, List.append_left_eq_self]
        exact hne2
      simp [StatefulArray.unshift, hne2, hne]
    · have heq : items = [] := List.length_eq_zero.mp (by omega)
      simp [StatefulArray.unshift, heq]
  · intro a
    by_cases h : ((List.range' 0 (a.data.length / 2)).any fun i =>
        a.data[i]? != a.data[a.data.length - i - 1]?) = true
    · have hne := (reverse_mismatch_iff a.data).mp h
      simp [StatefulArray.reverse, h, hne]
    · have h' : ((List.range' 0 (a.data.length / 2)).any fun i =>
          a.data[i]? != a.data[a.data.length - i - 1]?) = false := by simpa using h
      have heq : a.data.reverse = a.data := by
        by_contra hne
        exact h ((reverse_mismatch_iff a.data).mpr hne)
      simp [StatefulArray.reverse, h', heq]
  · intro a start dc rest
    by_cases h : dc.getD 0 ≠ 0 ∨ rest ≠ []
    · simp [StatefulArray.splice, if_pos h, h]
    · simp [StatefulArray.splice, if_neg h, h]
  · intro a start
    exact ⟨by simp [StatefulArray.splice, List.take_append_drop],
      by simp [StatefulArray.splice]⟩
  · intro a start
    exact ⟨by simp [StatefulArray.splice, List.take_append_drop],
      by simp [StatefulArray.splice]⟩
  · intro a v
    by_cases h : (List.range' 0 (a.data.length - 1)).any
        (fun i => a.data[i]? != some v) = true
    · have hex : ∃ i, i < a.data.length - 1 ∧ a.data[i]? ≠ some v := by
        rw [range'_any_iff] at h
        obtain ⟨i, -, h2, hp⟩ := h
        exact ⟨i, by omega, by simpa using hp⟩
      simp [StatefulArray.fill, h, hex]
    · have h' : (List.range' 0 (a.data.length - 1)).any
          (fun i => a.data[i]? != some v) = false := by simpa using h
      have hnex : ¬ ∃ i, i < a.data.length - 1 ∧ a.data[i]? ≠ some v := by
        rintro ⟨i, hi, hne⟩
        exact h ((range'_any_iff _ 0 _).mpr ⟨i, Nat.zero_le i, by omega, by simpa using hne⟩)
      simp [StatefulArray.fill, h', hnex]
  · intro a target start e
    by_cases h : ((List.range' 0 (e.getD (a.data.length - 1))).any fun o =>
        a.data[target + o]? != a.data[start + o]?) = true
    · have hex : ∃ o, o < e.getD (a.data.length - 1)
          ∧ a.data[target + o]? ≠ a.data[start + o]? := by
        rw [range'_any_iff] at h
        obtain ⟨o, -, h2, hp⟩ := h
        exact ⟨o, by omega, by simpa using hp⟩
      simp [StatefulArray.copyWithin, h, hex]
    · have h' : ((List.range' 0 (e.getD (a.data.length - 1))).any fun o =>
          a.data[target + o]? != a.data[start + o]?) = false := by simpa using h
      have hnex : ¬ ∃ o, o < e.getD (a.data.length - 1)
          ∧ a.data[target + o]? ≠ a.data[start + o]? := by
        rintro ⟨o, ho, hne⟩
        exact h ((range'_any_iff _ 0 _).mpr ⟨o, Nat.zero_le o, by omega, by simpa using hne⟩)
      simp [StatefulArray.copyWithin, h', hnex]

/-! ## Claim C4 — `StatefulSet.toggle`'s return value -/

/-- C4: toggling a value into an empty set makes it a member, yet the
method returns `false` (its own doc comment promises `true` when the
value is now present) — the "added" branch of the source returns
`false`. -/
theorem statefulSet_toggle_returns_false_on_insert :
    (StatefulSet.toggle ⟨[], true⟩ 7).ret = false
      ∧ 7 ∈ (StatefulSet.toggle ⟨[], true⟩ 7).state.elems := by
  decide

/-! ## Claim C5 — `StatefulArray.sort` never terminates -/

/-- C5: the override dispatches a signal and then calls `this.sort`
again — itself, not `super.sort` — so no amount of fuel makes the call
return: the recursion is unbounded and the native sort is never
performed. -/
theorem statefulArray_sort_never_terminates :
    ∀ (fuel : Nat) (a : StatefulArray), StatefulArray.sortFuel fuel a = none := by
  intro fuel
  induction fuel with
  | zero => intro a; rfl
  | succ fuel ih => intro a; exact ih _

/-! ## Claim C6 — `reset` -/

/-- C6 counterexample: a `StatefulSet` built by adding `7` to an empty
set last delivered the signal value `1` (its size); `reset` with the
value-identical collection `{7}` emits `1` again — the very same value —
so a dependent comparing signal values observes nothing, contradicting
the claim that the emission is always observable by value comparison. -/
theorem statefulSet_reset_signal_coincides_cex :
    (StatefulSet.add ⟨[], true⟩ 7).emitted = [(1 : Int)]
      ∧ (StatefulSet.add ⟨[], true⟩ 7).state = ⟨[7], true⟩
      ∧ StatefulSet.reset ⟨[7], true⟩ [7]
          = Except.ok ⟨⟨[7], false⟩, [(1 : Int)]⟩ := by
  decide

/-- C6 (amended): `reset` throws exactly when no redefinition callback is
registered (and builds nothing); with a callback registered it
constructs a fresh instance carrying the new values and dispatches the
signal exactly once — for `StatefulMap` the dispatched value is the old
counter plus one (never equal to the old counter), while for
`StatefulSet` the dispatched value is just the new instance's size,
which may coincide with the previously observed value. -/
theorem reset_behavior_amended :
    (∀ entries sig v, StatefulMap.reset ⟨entries, sig, false⟩ v
        = Except.error "Cannot redefine Set. No redefine callback set.")
    ∧ (∀ entries sig v, StatefulMap.reset ⟨entries, sig, true⟩ v
        = Except.ok ⟨⟨v, sig + 1, false⟩, [Int.ofNat (sig + 1)]⟩ ∧ sig + 1 ≠ sig)
    ∧ (∀ elems v, StatefulSet.reset ⟨elems, false⟩ v
        = Except.error "Cannot redefine Set. No redefine callback set.")
    ∧ (∀ elems v, StatefulSet.reset ⟨elems, true⟩ v
        = Except.ok ⟨⟨v.dedup, false⟩, [Int.ofNat v.dedup.length]⟩) := by
  refine ⟨fun _ _ _ => rfl, fun _ sig _ => ⟨rfl, by omega⟩, fun _ _ => rfl, fun _ _ => rfl⟩

/-! ## Claim C9 — the signal counter and change detection -/

/-- C9 counterexample: `useMap` initializes the host's signal state to
the initial collection's size, so for initial entries `[(1, 10)]` the
host holds `1`; the first observed mutation `set 1 20` dispatches the
incremented counter — also `1` — so the delivered value equals the value
the host last received and value comparison misses the mutation.
Moreover `clear` resets the counter to `0` instead of incrementing it. -/
theorem signal_counter_cex :
    useMapInitialSignal [(1, 10)] = 1
      ∧ (StatefulMap.set ⟨[(1, 10)], 0, true⟩ 1 20).emitted = [(1 : Int)]
      ∧ (StatefulMap.set ⟨[(1, 10)], 0, true⟩ 1 20).state.entries = [(1, 20)]
      ∧ (StatefulMap.clear ⟨[(1, 10)], 5, true⟩).state.signal = 0 := by
  decide

/-- C9 (amended): `StatefulMap.set`/`delete` increment the per-instance
counter exactly when they signal and deliver the incremented value,
`forceUpdate` always increments and delivers, but `clear` resets the
counter to `0` and delivers `0`; `StatefulSet` has no counter — its
`add`, `delete`, `clear`, `toggle` and `reset` deliver the new size and
its `forceUpdate` delivers the constant `-1` — and `useMap` seeds the
host's signal state with the initial collection's length, so a
delivered counter value can repeat a value the host already holds. -/
theorem signal_delivery_amended :
    (∀ m k v, ((StatefulMap.set m k v).state.signal = m.signal
          ∧ (StatefulMap.set m k v).emitted = [])
        ∨ ((StatefulMap.set m k v).state.signal = m.signal + 1
          ∧ (StatefulMap.set m k v).emitted = [Int.ofNat (m.signal + 1)]))
    ∧ (∀ m k, ((StatefulMap.delete m k).state.signal = m.signal
          ∧ (StatefulMap.delete m k).emitted = [])
        ∨ ((StatefulMap.delete m k).state.signal = m.signal + 1
          ∧ (StatefulMap.delete m k).emitted = [Int.ofNat (m.signal + 1)]))
    ∧ (∀ m, (StatefulMap.forceUpdate m).state.signal = m.signal + 1
        ∧ (StatefulMap.forceUpdate m).emitted = [Int.ofNat (m.signal + 1)])
    ∧ (∀ m, (StatefulMap.clear m).state.signal = 0
        ∧ (StatefulMap.clear m).emitted = [(0 : Int)])
    ∧ (∀ s v, (StatefulSet.add s v).emitted
        = [Int.ofNat (StatefulSet.add s v).state.elems.length])
    ∧ (∀ s v, (StatefulSet.delete s v).emitted
        = [Int.ofNat (StatefulSet.delete s v).state.elems.length])
    ∧ (∀ s, (StatefulSet.clear s).emitted
        = [Int.ofNat (StatefulSet.clear s).state.elems.length])
    ∧ (∀ s v, (StatefulSet.toggle s v).emitted
        = [Int.ofNat (StatefulSet.toggle s v).state.elems.length])
    ∧ (∀ elems v, StatefulSet.reset ⟨elems, true⟩ v
        = Except.ok ⟨⟨v.dedup, false⟩, [Int.ofNat v.dedup.length]⟩)
    ∧ (∀ s, (StatefulSet.forceUpdate s).emitted = [(-1 : Int)])
    ∧ (∀ l, useMapInitialSignal l = l.length) := by
  refine ⟨?_, ?_, fun _ => ⟨rfl, rfl⟩, fun _ => ⟨rfl, rfl⟩, ?_, fun _ _ => rfl,
    fun _ => rfl, ?_, fun _ _ => rfl, fun _ => rfl, fun _ => rfl⟩
  · intro m k v
    rw [StatefulMap.set]
    by_cases h : containsKey m.entries k = false ∨ lookupKey m.entries k ≠ some v
    · rw [if_pos h]; exact Or.inr ⟨rfl, rfl⟩
    · rw [if_neg h]; exact Or.inl ⟨rfl, rfl⟩
  · intro m k
    rw [StatefulMap.delete]
    by_cases h : containsKey m.entries k
    · rw [if_pos h]; exact Or.inr ⟨rfl, rfl⟩
    · rw [if_neg h]; exact Or.inl ⟨rfl, rfl⟩
  · intro s v
    rw [StatefulSet.add]
  · intro s v
    by_cases h : v ∈ s.elems <;> simp [StatefulSet.toggle, h]

/-! ## Claim C1 — `useFetch` discards superseded completions -/

theorem fetchRun_append (m : FetchMachine) (l₁ l₂ : List FEvent) :
    fetchRun m (l₁ ++ l₂) = fetchRun (fetchRun m l₁) l₂ := by
  induction l₁ generalizing m with
  | nil => rfl
  | cons e es ih =>
    simp only [List.cons_append, fetchRun]
    exact ih (fetchStep m e)

/-- A completion of an operation that is not the current one changes
nothing (its `AbortController` has been aborted by the effect cleanup). -/
theorem fetchStep_stale_complete (m : FetchMachine) (i : Nat) (out : FOutcome)
    (h : m.current ≠ some i) : fetchStep m (.complete i out) = m := by
  simp [fetchStep, h]

/-- `lowerBound k m`: every identifier the machine may still commit for is
at least `k`, and at least `k` operations have been started. -/
def lowerBound (k : Nat) (m : FetchMachine) : Prop :=
  k ≤ m.nextId ∧ ∀ j, m.current = some j → k ≤ j

theorem lowerBound_step (k : Nat) (m : FetchMachine) (e : FEvent)
    (h : lowerBound k m) : lowerBound k (fetchStep m e) := by
  obtain ⟨h1, h2⟩ := h
  cases e with
  | depChange b =>
    cases b with
    | false => exact ⟨by simp [fetchStep]; omega, by simp [fetchStep]⟩
    | true =>
      refine ⟨by simp [fetchStep]; omega, ?_⟩
      intro j hj
      simp [fetchStep] at hj
      omega
  | complete i out =>
    by_cases hc : m.current = some i
    · constructor
      · cases out <;> simp only [fetchStep, if_pos hc] <;> exact h1
      · intro j hj
        apply h2 j
        cases out <;> simpa only [fetchStep, if_pos hc] using hj
    · rw [fetchStep_stale_complete m i out hc]
      exact ⟨h1, h2⟩

theorem lowerBound_run (k : Nat) (m : FetchMachine) (es : List FEvent)
    (h : lowerBound k m) : lowerBound k (fetchRun m es) := by
  induction es generalizing m with
  | nil => exact h
  | cons e es ih => exact ih _ (lowerBound_step k m e h)

/-- C1: (1) a completion whose operation is no longer current leaves the
machine untouched; (2) whenever an operation was already started before
some later dependency change (its identifier is below `nextId` at that
point), its eventual completion — resolution or rejection, however late —
leaves the whole machine unchanged, so only the most recently started
operation can commit a `resolved`/`rejected` transition; (3) in the
`[A, A, B]` scenario, A's late resolution after B's dependency change
leaves the state `waiting`, and the final state reflects only B's
outcome. -/
theorem useFetch_discards_superseded :
    (∀ (m : FetchMachine) (i : Nat) (out : FOutcome), m.current ≠ some i →
      fetchStep m (.complete i out) = m)
    ∧ (∀ (persist : Bool) (es₁ : List FEvent) (b : Bool) (es₂ : List FEvent)
        (i : Nat) (out : FOutcome),
        i < (fetchRun (initFetch persist) es₁).nextId →
        fetchRun (initFetch persist) (es₁ ++ FEvent.depChange b :: es₂ ++ [FEvent.complete i out])
          = fetchRun (initFetch persist) (es₁ ++ FEvent.depChange b :: es₂))
    ∧ (fetchRun (initFetch false) [FEvent.depChange true, FEvent.depChange true,
        FEvent.complete 0 (FOutcome.resolve 111)]).value
        = { fstate := .waiting, result := none, error := none }
    ∧ (fetchRun (initFetch false) [FEvent.depChange true, FEvent.depChange true,
        FEvent.complete 0 (FOutcome.resolve 111), FEvent.complete 1 (FOutcome.resolve 222)]).value
        = { fstate := .resolved, result := some 222, error := none } := by
  refine ⟨fetchStep_stale_complete, ?_, by decide, by decide⟩
  intro persist es₁ b es₂ i out hi
  have hsplit : es₁ ++ FEvent.depChange b :: es₂ ++ [FEvent.complete i out]
      = (es₁ ++ FEvent.depChange b :: es₂) ++ [FEvent.complete i out] := by
    simp
  rw [hsplit, fetchRun_append]
  set m₁ := fetchRun (initFetch persist) es₁ with hm₁
  have hdep : lowerBound (i + 1) (fetchStep m₁ (.depChange b)) := by
    cases b with
    | false => exact ⟨by simp [fetchStep]; omega, by simp [fetchStep]⟩
    | true =>
      refine ⟨by simp [fetchStep]; omega, ?_⟩
      intro j hj
      simp [fetchStep] at hj
      omega
  have hrun : lowerBound (i + 1) (fetchRun (initFetch persist) (es₁ ++ FEvent.depChange b :: es₂)) := by
    rw [fetchRun_append]
    exact lowerBound_run (i + 1) (fetchStep m₁ (.depChange b)) es₂ hdep
  have hne : (fetchRun (initFetch persist) (es₁ ++ FEvent.depChange b :: es₂)).current ≠ some i := by
    intro hc
    have := hrun.2 i hc
    omega
  have hone : fetchRun (fetchRun (initFetch persist) (es₁ ++ FEvent.depChange b :: es₂))
      [FEvent.complete i out]
      = fetchStep (fetchRun (initFetch persist) (es₁ ++ FEvent.depChange b :: es₂))
        (.complete i out) := rfl
  rw [hone, fetchStep_stale_complete _ _ _ hne]

/-- Witness for C1: a stale completion on a machine currently running
operation 1 is dropped, and in a two-cycle run the superseded operation
0's late resolution leaves the run unchanged. -/
theorem useFetch_discards_superseded_witness :
    fetchStep { value := { fstate := .waiting, result := none, error := none },
                persist := false, nextId := 2, current := some 1 }
        (.complete 0 (.resolve 5))
      = { value := { fstate := .waiting, result := none, error := none },
          persist := false, nextId := 2, current := some 1 }
    ∧ fetchRun (initFetch false)
        ([FEvent.depChange true] ++ FEvent.depChange true :: ([] : List FEvent)
          ++ [FEvent.complete 0 (FOutcome.resolve 7)])
      = fetchRun (initFetch false)
        ([FEvent.depChange true] ++ FEvent.depChange true :: ([] : List FEvent)) :=
  ⟨useFetch_discards_superseded.1 _ 0 (.resolve 5) (by decide),
   useFetch_discards_superseded.2.1 false [FEvent.depChange true] true []
     0 (FOutcome.resolve 7) (by decide)⟩

/-! ## Helper lemmas for the heap model -/

theorem setCell_signals (s : PState) (a : Nat) (c : Cell) :
    (setCell s a c).signals = s.signals := rfl

theorem alloc_signals (s : PState) (c : Cell) :
    (alloc s c).1.signals = s.signals := rfl

theorem updateProp_signals (s : PState) (a : Nat) (k : String) (v : JSVal) :
    (updateProp s a k v).signals = s.signals := by
  unfold updateProp
  split <;> rfl

theorem getProp_setProp_self (props : List (String × JSVal)) (k : String) (v : JSVal) :
    getProp (setProp props k v) k = v := by
  induction props with
  | nil => simp [setProp, getProp]
  | cons hd rest ih =>
    by_cases h : hd.1 = k
    · simp [setProp, getProp, h]
    · simp [setProp, getProp, h, ih]

theorem getProp_setProp_ne (props : List (String × JSVal)) (k k' : String) (v : JSVal)
    (h : k' ≠ k) : getProp (setProp props k v) k' = getProp props k' := by
  have hkk : (k = k') = False := eq_false fun he => h he.symm
  induction props with
  | nil => simp [setProp, getProp, hkk]
  | cons hd rest ih =>
    obtain ⟨hk, hv⟩ := hd
    by_cases hhd : hk = k
    · simp [setProp, getProp, hhd, hkk]
    · by_cases hhd' : hk = k'
      · simp [setProp, getProp, hhd, hhd', h]
      · simp [setProp, getProp, hhd, hhd', ih]

/-- The initial wrapping loop never invokes the signal dispatch, provided
the recursive wrap it is given does not. -/
theorem initLoopWith_signals (wrap : PState → Nat → Option (PState × Nat))
    (hw : ∀ s a r, wrap s a = some r → r.1.signals = s.signals) :
    ∀ (ks : List String) (s : PState) (a : Nat) (s' : PState),
      initLoopWith wrap s a ks = some s' → s'.signals = s.signals := by
  intro ks
  induction ks with
  | nil =>
    intro s a s' h
    cases h
    rfl
  | cons k ks ih =>
    intro s a s' h
    simp only [initLoopWith] at h
    split at h
    · cases hv : getProp (objPropsOf s a) k with
      | addr va =>
        rw [hv] at h
        simp only [] at h
        cases hr : wrap s va with
        | none => rw [hr] at h; cases h
        | some r =>
          obtain ⟨s₂, sub⟩ := r
          rw [hr] at h
          simp only [] at h
          rw [ih _ _ _ h, updateProp_signals, hw _ _ _ hr]
      | undef => rw [hv] at h; cases h
      | num n => rw [hv] at h; cases h
      | closure i => rw [hv] at h; cases h
    · exact ih _ _ _ h

/-- `proxyObject` (src/src version) itself never invokes the signal
dispatch: the initial recursive wrapping writes directly to the raw
objects. -/
theorem proxyObjectSS_signals :
    ∀ (fuel : Nat) (s : PState) (a : Nat) (r : PState × Nat),
      proxyObjectSS fuel s a = some r → r.1.signals = s.signals := by
  intro fuel
  induction fuel with
  | zero => intro s a r h; cases h
  | succ fuel ih =>
    intro s a r h
    simp only [proxyObjectSS] at h
    split at h
    · split at h
      · rename_i s₁ hloop
        cases h
        exact initLoopWith_signals _ ih _ _ _ s₁ hloop
      · cases h
    · cases h

theorem isPlainObj_undef (s : PState) : isPlainObj s .undef = false := by
  unfold isPlainObj
  cases s.heap.length <;> rfl

theorem isPlainObj_num (s : PState) (n : Nat) : isPlainObj s (.num n) = false := by
  unfold isPlainObj
  cases s.heap.length <;> rfl

theorem isPlainObj_closure (s : PState) (i : Nat) :
    isPlainObj s (.closure i) = false := by
  unfold isPlainObj
  cases s.heap.length <;> rfl

/-! ## Claim C2 — writes through the proxy signal exactly once iff the
stored value differs -/

/-- C2: for both `proxyObject`'s `set` trap (src/src/hooks/use-object.ts)
and the non-recursive `useObject` trap (src/hooks/use-object.ts), a
successful property write invokes the signal dispatch exactly once when
the written key is not the reserved `valueOf` accessor and the assigned
value differs by identity from the value currently stored on the target,
and zero times otherwise — the recursive wrapping of a plain assigned
value performs no additional dispatch. -/
theorem useObject_write_signal_iff :
    (∀ (fuel : Nat) (s : PState) (p t : Nat) (k : String) (v : JSVal)
        (rv : Bool) (en : List RevEntry) (props : List (String × JSVal))
        (pl : Bool) (s' : PState),
        getCell s p = some (.prox t rv en) →
        getCell s t = some (.obj props pl) →
        proxySetSS fuel s p k v = some s' →
        s'.signals = s.signals + (if k ≠ "valueOf" ∧ getProp props k ≠ v then 1 else 0))
    ∧ (∀ (s : PState) (p t : Nat) (k : String) (v : JSVal)
        (rv : Bool) (en : List RevEntry) (props : List (String × JSVal))
        (pl : Bool) (s' : PState),
        getCell s p = some (.prox t rv en) →
        getCell s t = some (.obj props pl) →
        proxySetSimple s p k v = some s' →
        s'.signals = s.signals + (if k ≠ "valueOf" ∧ getProp props k ≠ v then 1 else 0)) := by
  constructor
  · intro fuel s p t k v rv en props pl s' hp ht hset
    simp only [proxySetSS, hp, ht] at hset
    by_cases hcond : k ≠ "valueOf" ∧ getProp props k ≠ v
    · rw [if_pos hcond] at hset
      rw [if_pos hcond]
      split at hset
      · cases v with
        | addr va =>
          simp only [] at hset
          cases hw : proxyObjectSS fuel { s with signals := s.signals + 1 } va with
          | none => rw [hw] at hset; cases hset
          | some r =>
            obtain ⟨s₂, sub⟩ := r
            rw [hw] at hset
            simp only [] at hset
            cases hset
            rw [updateProp_signals, proxyObjectSS_signals fuel _ va _ hw]
        | undef => rename_i hplain; rw [isPlainObj_undef] at hplain; cases hplain
        | num n => rename_i hplain; rw [isPlainObj_num] at hplain; cases hplain
        | closure i => rename_i hplain; rw [isPlainObj_closure] at hplain; cases hplain
      · cases hset
        rw [updateProp_signals]
    · rw [if_neg hcond] at hset
      rw [if_neg hcond, Nat.add_zero]
      split at hset
      · cases v with
        | addr va =>
          simp only [] at hset
          cases hw : proxyObjectSS fuel s va with
          | none => rw [hw] at hset; cases hset
          | some r =>
            obtain ⟨s₂, sub⟩ := r
            rw [hw] at hset
            simp only [] at hset
            cases hset
            rw [updateProp_signals, proxyObjectSS_signals fuel _ va _ hw]
        | undef => rename_i hplain; rw [isPlainObj_undef] at hplain; cases hplain
        | num n => rename_i hplain; rw [isPlainObj_num] at hplain; cases hplain
        | closure i => rename_i hplain; rw [isPlainObj_closure] at hplain; cases hplain
      · cases hset
        rw [updateProp_signals]
  · intro s p t k v rv en props pl s' hp ht hset
    simp only [proxySetSimple, hp, ht] at hset
    by_cases hcond : k ≠ "valueOf" ∧ getProp props k ≠ v
    · rw [if_pos hcond] at hset
      rw [if_pos hcond]
      cases hset
      rw [updateProp_signals]
    · rw [if_neg hcond] at hset
      rw [if_neg hcond, Nat.add_zero]
      cases hset
      rw [updateProp_signals]

/-- Witness for C2, on a proxy over `{x: 1}`: writing `x := 2` signals
exactly once (for both trap variants). -/
theorem useObject_write_signal_iff_witness :
    proxySetSS 3 ⟨[Cell.obj [("x", JSVal.num 1)] true, Cell.prox 0 false []], 0⟩
        1 "x" (JSVal.num 2)
      = some ⟨[Cell.obj [("x", JSVal.num 2)] true, Cell.prox 0 false []], 1⟩
    ∧ (1 : Nat) = 0 + (if ("x" : String) ≠ "valueOf"
        ∧ getProp [("x", JSVal.num 1)] "x" ≠ JSVal.num 2 then 1 else 0)
    ∧ (1 : Nat) = 0 + (if ("x" : String) ≠ "valueOf"
        ∧ getProp [("x", JSVal.num 1)] "x" ≠ JSVal.num 2 then 1 else 0) :=
  ⟨by decide,
   useObject_write_signal_iff.1 3 ⟨[Cell.obj [("x", JSVal.num 1)] true, Cell.prox 0 false []], 0⟩
     1 0 "x" (JSVal.num 2) false [] [("x", JSVal.num 1)] true
     ⟨[Cell.obj [("x", JSVal.num 2)] true, Cell.prox 0 false []], 1⟩
     (by decide) (by decide) (by decide),
   useObject_write_signal_iff.2 ⟨[Cell.obj [("x", JSVal.num 1)] true, Cell.prox 0 false []], 0⟩
     1 0 "x" (JSVal.num 2) false [] [("x", JSVal.num 1)] true
     ⟨[Cell.obj [("x", JSVal.num 2)] true, Cell.prox 0 false []], 1⟩
     (by decide) (by decide) (by decide)⟩

/-! ## Claim C7 — revocation -/

theorem getCell_setCell_self (s : PState) (p : Nat) (c c₀ : Cell)
    (h : getCell s p = some c₀) : getCell (setCell s p c) p = some c := by
  unfold getCell setCell
  unfold getCell at h
  rw [List.get?_eq_getElem?] at h ⊢
  obtain ⟨hlt, -⟩ := List.getElem?_eq_some_iff.mp h
  simp [List.getElem?_set_self hlt]

theorem getCell_setCell_ne (s : PState) (q p : Nat) (c : Cell) (h : q ≠ p) :
    getCell (setCell s q c) p = getCell s p := by
  unfold getCell setCell
  rw [List.get?_eq_getElem?, List.get?_eq_getElem?]
  exact List.getElem?_set_ne h

/-- Direct writes only touch object cells: any proxy cell is intact. -/
theorem updateProp_prox_preserved (s : PState) (a : Nat) (k : String) (v : JSVal)
    (p t : Nat) (rv : Bool) (en : List RevEntry)
    (h : getCell s p = some (.prox t rv en)) :
    getCell (updateProp s a k v) p = some (.prox t rv en) := by
  unfold updateProp
  split
  · rename_i props pl ha
    by_cases hap : a = p
    · subst hap
      rw [ha] at h
      cases h
    · rw [getCell_setCell_ne _ _ _ _ hap]
      exact h
  · exact h

/-- Entry processing during `revoke` keeps every already-revoked proxy
cell exactly as it is, provided the recursive revoke does. -/
theorem revokeListWith_prox_true (rev : PState → Nat → PState)
    (hrev : ∀ s q (p t : Nat) (en : List RevEntry),
      getCell s p = some (.prox t true en) →
      getCell (rev s q) p = some (.prox t true en)) :
    ∀ (es : List RevEntry) (s : PState) (p t : Nat) (en : List RevEntry),
      getCell s p = some (.prox t true en) →
      getCell (revokeListWith rev s es) p = some (.prox t true en) := by
  intro es
  induction es with
  | nil => intro s p t en h; exact h
  | cons e es ih =>
    intro s p t en h
    simp only [revokeListWith]
    exact ih _ _ _ _ (updateProp_prox_preserved _ _ _ _ _ _ _ _ (hrev _ _ _ _ _ h))

/-- The compound revoke never un-revokes: an already revoked proxy cell
is untouched by any further `revoke` run. -/
theorem revokeP2_prox_true :
    ∀ (fuel : Nat) (s : PState) (q : Nat) (p t : Nat) (en : List RevEntry),
      getCell s p = some (.prox t true en) →
      getCell (revokeP2 fuel s q) p = some (.prox t true en) := by
  intro fuel
  induction fuel with
  | zero => intro s q p t en h; exact h
  | succ fuel ih =>
    intro s q p t en h
    simp only [revokeP2]
    split
    · rename_i t' rv' en' hq
      apply revokeListWith_prox_true _ (fun s q p t en h => ih s q p t en h) en'
      by_cases hpq : q = p
      · subst hpq
        rw [hq] at h
        cases h
        exact getCell_setCell_self _ _ _ _ hq
      · rw [getCell_setCell_ne _ _ _ _ hpq]
        exact h
    · exact h

/-- `revoke` marks the proxy it is called on as revoked (and leaves its
target and recorded entries as they were). -/
theorem revokeP2_marks (fuel : Nat) (s : PState) (p t : Nat) (rv : Bool)
    (en : List RevEntry) (h : getCell s p = some (.prox t rv en)) :
    getCell (revokeP2 (fuel + 1) s p) p = some (.prox t true en) := by
  simp only [revokeP2, h]
  exact revokeListWith_prox_true _ (revokeP2_prox_true fuel) en _ _ _ _
    (getCell_setCell_self _ _ _ _ h)

/-- Base heap of the nested revocation scenario: the caller's object
`{a: {b: 1}}` (cells 0 and 1) plus the plain object `{d: 7}` (cell 2)
that a later write will assign. -/
def sBase : PState :=
  ⟨[Cell.obj [("a", JSVal.addr 1)] true,
    Cell.obj [("b", JSVal.num 1)] true,
    Cell.obj [("d", JSVal.num 7)] true], 0⟩

/-- After `proxyObject` built the root wrapper (proxy 4 over cell 0, with
child proxy 3 over cell 1 recorded for revocation). -/
def sMid : PState :=
  ⟨[Cell.obj [("a", JSVal.addr 3)] true,
    Cell.obj [("b", JSVal.num 1)] true,
    Cell.obj [("d", JSVal.num 7)] true,
    Cell.prox 1 false [],
    Cell.prox 0 false [⟨3, 0, "a", JSVal.addr 1⟩]], 0⟩

/-- After the later write `root.c := {d: 7}` through proxy 4: the write
signalled once, wrapped cell 2 in proxy 5 and recorded it. -/
def sScenario : PState :=
  ⟨[Cell.obj [("a", JSVal.addr 3), ("c", JSVal.addr 5)] true,
    Cell.obj [("b", JSVal.num 1)] true,
    Cell.obj [("d", JSVal.num 7)] true,
    Cell.prox 1 false [],
    Cell.prox 0 false [⟨3, 0, "a", JSVal.addr 1⟩, ⟨5, 0, "c", JSVal.addr 2⟩],
    Cell.prox 2 false []], 1⟩

/-- After `revoke()` on the root: every wrapper revoked, raw values
restored into the root's slots, signal count unchanged. -/
def sRevoked : PState :=
  ⟨[Cell.obj [("a", JSVal.addr 1), ("c", JSVal.addr 2)] true,
    Cell.obj [("b", JSVal.num 1)] true,
    Cell.obj [("d", JSVal.num 7)] true,
    Cell.prox 1 true [],
    Cell.prox 0 true [⟨3, 0, "a", JSVal.addr 1⟩, ⟨5, 0, "c", JSVal.addr 2⟩],
    Cell.prox 2 true []], 1⟩

/-- C7 counterexample: after `revoke()`, a write through the same proxy
handle does not succeed as a direct write on the unwrapped target — the
revoked `Proxy.revocable` handle throws a `TypeError` (`none`),
contradicting the claim that post-revocation operations through the
handle succeed. -/
theorem revoked_proxy_write_throws_cex :
    proxyObjectP2 2 ⟨[Cell.obj [("x", JSVal.num 1)] true], 0⟩ 0
      = some (⟨[Cell.obj [("x", JSVal.num 1)] true, Cell.prox 0 false []], 0⟩, 1)
    ∧ revokeP2 2 ⟨[Cell.obj [("x", JSVal.num 1)] true, Cell.prox 0 false []], 0⟩ 1
      = ⟨[Cell.obj [("x", JSVal.num 1)] true, Cell.prox 0 true []], 0⟩
    ∧ proxySetP2 2 ⟨[Cell.obj [("x", JSVal.num 1)] true, Cell.prox 0 true []], 0⟩
        1 "x" (JSVal.num 2) = none := by
  decide

/-- C7 (amended): `revoke()` disables interception for the node and for
every descendant recorded in its revocation entries — including wrappers
created by later writes — restoring the raw values into the parent
slots; but after revocation, property reads, writes and deletes through
the same (or any descendant) handle throw a `TypeError` and fire no
signal, rather than acting on the unwrapped target; operations directly
on the raw target do succeed with no signal and no wrapping; and calling
`revoke()` again is a no-op.  The nested scenario: a proxy over
`{a: {b: 1}}` receives a later write `c := {d: 7}`; revoking the root
revokes both the initial child and the later-write child, restores the
raw objects into the root's slots, and a second revoke changes nothing. -/
theorem revoke_behavior_amended :
    (∀ (fuel : Nat) (s : PState) (p t : Nat) (en : List RevEntry) (k : String) (v : JSVal),
      getCell s p = some (.prox t true en) →
      proxySetP2 fuel s p k v = none ∧ proxyDelP2 s p k = none ∧ proxyGet s p k = none)
    ∧ (∀ (fuel : Nat) (s : PState) (p t : Nat) (rv : Bool) (en : List RevEntry),
      getCell s p = some (.prox t rv en) →
      getCell (revokeP2 (fuel + 1) s p) p = some (.prox t true en))
    ∧ (∀ (props : List (String × JSVal)) (pl : Bool) (n : Nat) (k : String) (v : JSVal),
      updateProp ⟨[Cell.obj props pl], n⟩ 0 k v
        = ⟨[Cell.obj (setProp props k v) pl], n⟩)
    ∧ (proxyObjectP2 9 sBase 0 = some (sMid, 4)
      ∧ proxySetP2 9 sMid 4 "c" (JSVal.addr 2) = some sScenario
      ∧ revokeP2 9 sScenario 4 = sRevoked
      ∧ proxySetP2 9 sRevoked 4 "x" (JSVal.num 5) = none
      ∧ proxySetP2 9 sRevoked 3 "x" (JSVal.num 5) = none
      ∧ proxySetP2 9 sRevoked 5 "x" (JSVal.num 5) = none
      ∧ proxyDelP2 sRevoked 4 "a" = none
      ∧ proxyGet sRevoked 4 "a" = none
      ∧ objPropsOf sRevoked 0 = [("a", JSVal.addr 1), ("c", JSVal.addr 2)]
      ∧ revokeP2 9 sRevoked 4 = sRevoked) := by
  refine ⟨?_, revokeP2_marks, ?_, by decide⟩
  · intro fuel s p t en k v h
    refine ⟨?_, ?_, ?_⟩ <;> simp [proxySetP2, proxyDelP2, proxyGet, h]
  · intro props pl n k v
    simp [updateProp, getCell, setCell, setProp]

/-- Witness for C7's amended theorem: the revoked root of the concrete
scenario rejects a write, a delete and a read, and a fresh revoke on a
live proxy marks it revoked. -/
theorem revoke_behavior_amended_witness :
    (proxySetP2 9 sRevoked 4 "y" (JSVal.num 3) = none
      ∧ proxyDelP2 sRevoked 4 "c" = none
      ∧ proxyGet sRevoked 4 "c" = none)
    ∧ getCell (revokeP2 2 ⟨[Cell.obj [("x", JSVal.num 1)] true, Cell.prox 0 false []], 0⟩ 1) 1
      = some (.prox 0 true []) :=
  ⟨revoke_behavior_amended.1 9 sRevoked 4 0
      [⟨3, 0, "a", JSVal.addr 1⟩, ⟨5, 0, "c", JSVal.addr 2⟩] "y" (JSVal.num 3) (by decide),
   revoke_behavior_amended.2.1 1 ⟨[Cell.obj [("x", JSVal.num 1)] true, Cell.prox 0 false []], 0⟩
      1 0 false [] (by decide)⟩

/-! ## Claim C8 — recursive wrapping of assigned plain values -/

/-- Heap before the two-level assignment: an empty target `{}` (cell 0)
and the value `{a: {b: 1}}` about to be assigned (cells 1 and 2). -/
def tBase : PState :=
  ⟨[Cell.obj [] true,
    Cell.obj [("a", JSVal.addr 2)] true,
    Cell.obj [("b", JSVal.num 1)] true], 0⟩

/-- After `proxyObject` wrapped the empty target (proxy 3 over cell 0). -/
def tProxied : PState :=
  ⟨[Cell.obj [] true,
    Cell.obj [("a", JSVal.addr 2)] true,
    Cell.obj [("b", JSVal.num 1)] true,
    Cell.prox 0 false []], 0⟩

/-- After `root.x := {a: {b: 1}}` through proxy 3: one signal, the value
wrapped recursively (proxy 5 over cell 1, proxy 4 over cell 2) before
being stored. -/
def tAssigned : PState :=
  ⟨[Cell.obj [("x", JSVal.addr 5)] true,
    Cell.obj [("a", JSVal.addr 4)] true,
    Cell.obj [("b", JSVal.num 1)] true,
    Cell.prox 0 false [],
    Cell.prox 2 false [],
    Cell.prox 1 false []], 1⟩

/-- After the two-levels-deep mutation `root.x.a.b := 2` through the
nested wrapper (proxy 4): a second signal. -/
def tDeep : PState :=
  ⟨[Cell.obj [("x", JSVal.addr 5)] true,
    Cell.obj [("a", JSVal.addr 4)] true,
    Cell.obj [("b", JSVal.num 2)] true,
    Cell.prox 0 false [],
    Cell.prox 2 false [],
    Cell.prox 1 false []], 2⟩

/-- C8: the src/src builder stores the primitive `5` as-is (no wrapping,
no new cells) and recursively wraps an assigned plain object so that a
mutation two levels deep still signals; the part_001 revision instead
tests the plainness of the proxied target (`object`) rather than the
assigned value, so assigning the primitive `5` through a proxy over a
plain object reaches `Proxy.revocable(5)` and throws a `TypeError`
(`none`) instead of storing the value unwrapped. -/
theorem plain_wrap_correct_and_part001_trap_throws :
    (proxySetSS 3 ⟨[Cell.obj [] true, Cell.prox 0 false []], 0⟩ 1 "x" (JSVal.num 5)
      = some ⟨[Cell.obj [("x", JSVal.num 5)] true, Cell.prox 0 false []], 1⟩)
    ∧ (proxyObjectSS 9 tBase 0 = some (tProxied, 3)
      ∧ proxySetSS 9 tProxied 3 "x" (JSVal.addr 1) = some tAssigned
      ∧ proxyGet tAssigned 3 "x" = some (JSVal.addr 5)
      ∧ proxyGet tAssigned 5 "a" = some (JSVal.addr 4)
      ∧ proxySetSS 9 tAssigned 4 "b" (JSVal.num 2) = some tDeep
      ∧ tDeep.signals = 2
      ∧ objPropsOf tDeep 2 = [("b", JSVal.num 2)])
    ∧ (proxyObjectP1 ⟨[Cell.obj [] true], 0⟩ (JSVal.addr 0)
        = some (⟨[Cell.obj [] true, Cell.prox 0 false []], 0⟩, 1)
      ∧ proxySetP1 ⟨[Cell.obj [] true, Cell.prox 0 false []], 0⟩ 1 "x" (JSVal.num 5)
        = none) := by
  decide

/-! ## Claim C10 — the `valueOf` frame effect of `useObject` -/

/-- The caller's object `{a: {b: 1}}` before the hook runs. -/
def uBase : PState :=
  ⟨[Cell.obj [("a", JSVal.addr 1)] true,
    Cell.obj [("b", JSVal.num 1)] true], 0⟩

/-- After the recursive builder ran: the nested plain property `a` now
holds the wrapper (proxy 2 over cell 1) instead of the original cell 1.  -/
def uProxied : PState :=
  ⟨[Cell.obj [("a", JSVal.addr 2)] true,
    Cell.obj [("b", JSVal.num 1)] true,
    Cell.prox 1 false [],
    Cell.prox 0 false []], 0⟩

/-- After `proxy.valueOf = () => signal`: the raw root carries the extra
own property, no signal fired. -/
def uValueOf : PState :=
  ⟨[Cell.obj [("a", JSVal.addr 2), ("valueOf", JSVal.closure 0)] true,
    Cell.obj [("b", JSVal.num 1)] true,
    Cell.prox 1 false [],
    Cell.prox 0 false []], 0⟩

/-- C10 counterexample: the recursive `useObject` builder does not leave
the other properties of the raw target unchanged — running it on
`{a: {b: 1}}` replaces the stored value of `a` (originally cell 1) with
the freshly created wrapper (cell 2), a different reference. -/
theorem useObject_replaces_nested_prop_cex :
    proxyObjectSS 5 uBase 0 = some (uProxied, 3)
    ∧ getProp (objPropsOf uBase 0) "a" = JSVal.addr 1
    ∧ getProp (objPropsOf uProxied 0) "a" = JSVal.addr 2
    ∧ JSVal.addr 2 ≠ JSVal.addr 1 := by
  decide

/-- C10 (amended): on every render `useObject` assigns the `valueOf`
reader through the proxy's `set` trap onto the raw target, which
afterwards observably carries the extra own property; the reserved write
never signals; the non-recursive hook leaves every other property of the
target untouched, while the recursive builder additionally replaces each
nested plain-object property with its wrapper (reference-distinct but
read-equivalent). -/
theorem valueOf_frame_effect_amended :
    (∀ (props : List (String × JSVal)) (n : Nat),
      proxySetSimple ⟨[Cell.obj props true, Cell.prox 0 false []], n⟩
          1 "valueOf" (JSVal.closure 0)
        = some ⟨[Cell.obj (setProp props "valueOf" (JSVal.closure 0)) true,
                 Cell.prox 0 false []], n⟩
      ∧ getProp (setProp props "valueOf" (JSVal.closure 0)) "valueOf" = JSVal.closure 0
      ∧ ∀ k, k = "valueOf"
          ∨ getProp (setProp props "valueOf" (JSVal.closure 0)) k = getProp props k)
    ∧ (proxySetSS 5 uProxied 3 "valueOf" (JSVal.closure 0) = some uValueOf
      ∧ uValueOf.signals = 0
      ∧ hasProp (objPropsOf uValueOf 0) "valueOf" = true
      ∧ proxyGet uValueOf 2 "b" = some (JSVal.num 1)) := by
  constructor
  · intro props n
    refine ⟨?_, getProp_setProp_self props _ _, ?_⟩
    · simp [proxySetSimple, getCell, updateProp, setCell]
    · intro k
      by_cases hk : k = "valueOf"
      · exact Or.inl hk
      · exact Or.inr (getProp_setProp_ne props _ _ _ hk)
  · decide

end ReactExoHooks
